import Mathlib

/-!
# Verification of `ratatui-statusbar` (`src/lib.rs`)

A shallow embedding of the status-bar widget: the data model
(`StatusBarSection`, `StatusBar`, `StatusBarError`), the by-index mutator
`section`, and the rendering entry point `render_ref`.

The crate delegates two operations to its `ratatui` dependency, whose code is
not part of this repository: the flex layout solver
(`Layout::horizontal(..).flex(..).spacing(..).split(area)`) and the buffer
write primitive (`Buffer::set_line`).  Those two are modelled from the
specification (its layout section describes each distribution strategy, and
its host-contract section describes the grid-span write primitive); every
other definition is translated directly from `src/lib.rs`.

Machine integers: `ratatui` uses `u16` coordinates and widths; the model uses
`Nat`, with the one overflow-relevant conversion in the render path —
`u16::try_from(s.content.width()).unwrap()` — modelled explicitly: the
embedded `renderRef` returns `none` (the panic) exactly when some section's
content width does not fit in a `u16`.

Display width: the model counts one column per character (`unicode-width`
measurement of multi-column glyphs is the host's concern and out of the
core's scope per the spec).
-/

namespace RatatuiStatusbar

/-- A rectangular region, as `ratatui::layout::Rect` (coordinates as `Nat`). -/
structure Rect where
  x : Nat
  y : Nat
  width : Nat
  height : Nat
deriving DecidableEq, Repr

/-- `Rect::is_empty`: a rect is empty when its width or height is zero. -/
def Rect.isEmpty (r : Rect) : Bool :=
  r.width == 0 || r.height == 0

/-- `Rect::right`: one past the last column. -/
def Rect.right (r : Rect) : Nat := r.x + r.width

/-- The cell `(x, y)` lies inside the rectangle. -/
def Rect.containsCell (r : Rect) (x y : Nat) : Prop :=
  r.x ≤ x ∧ x < r.x + r.width ∧ r.y ≤ y ∧ y < r.y + r.height

instance (r : Rect) (x y : Nat) : Decidable (r.containsCell x y) := by
  unfold Rect.containsCell; exact inferInstance

/-- A styled run of text, as `ratatui::text::Span` (style is cosmetic and
affects no claim, so only the content string is carried). -/
structure Span where
  content : String
deriving DecidableEq, Repr

/-- A styled line of text, as `ratatui::text::Line`: an ordered sequence of
spans. -/
structure Line where
  spans : List Span
deriving DecidableEq, Repr

/-- `Line::width`: total display width, one column per character. -/
def Line.width (l : Line) : Nat :=
  (l.spans.map fun s => s.content.length).sum

/-- The characters of the line, spans concatenated in order. -/
def Line.chars (l : Line) : List Char :=
  (l.spans.map fun s => s.content.data).flatten

/-- Modelled from the spec: the host's cell grid (`ratatui::buffer::Buffer`):
a rectangular area plus one character per cell, stored row-major. -/
structure Buffer where
  area : Rect
  content : List Char
deriving DecidableEq, Repr

/-- Row-major index of cell `(x, y)` within the buffer's area. -/
def Buffer.indexOf (b : Buffer) (x y : Nat) : Nat :=
  (y - b.area.y) * b.area.width + (x - b.area.x)

/-- Read cell `(x, y)`; cells outside the buffer's area read as blank. -/
def Buffer.get (b : Buffer) (x y : Nat) : Char :=
  if b.area.containsCell x y then b.content.getD (b.indexOf x y) ' ' else ' '

/-- Write cell `(x, y)`; writes outside the buffer's area are dropped. -/
def Buffer.set (b : Buffer) (x y : Nat) (c : Char) : Buffer :=
  if b.area.containsCell x y then
    { b with content := b.content.set (b.indexOf x y) c }
  else b

/-- Write a run of characters left to right on row `y` starting at column
`x`; each cell write is dropped if it falls outside the buffer's area. -/
def writeChars (y : Nat) : Buffer → Nat → List Char → Buffer
  | buf, _, [] => buf
  | buf, x, c :: cs => writeChars y (buf.set x y c) (x + 1) cs

/-- Modelled from the spec: the host grid primitive `Buffer::set_line`
("writing a styled text line into a grid span"): write the line's characters
left to right from `(x, y)`, at most `maxWidth` columns, clipped to the
buffer's area. -/
def Buffer.setLine (buf : Buffer) (x y : Nat) (line : Line) (maxWidth : Nat) :
    Buffer :=
  writeChars y buf x (line.chars.take maxWidth)

/-- A buffer covering `⟨0, 0, w, h⟩` with every cell blank (a freshly
cleared buffer, as `Buffer::empty`). -/
def Buffer.cleared (w h : Nat) : Buffer :=
  { area := { x := 0, y := 0, width := w, height := h }
    content := List.replicate (w * h) ' ' }

/-- The errors of `StatusBar` operations (`enum StatusBarError`). -/
inductive StatusBarError where
  /-- The requested index does not exist. -/
  | IndexOutOfBounds : Nat → StatusBarError
deriving DecidableEq, Repr

/-- One section of a status bar (`struct StatusBarSection`): content plus
optional decorative pre/post separators. -/
structure StatusBarSection where
  pre_separator : Option Span
  content : Line
  post_separator : Option Span
deriving DecidableEq, Repr

/-- `StatusBarSection::default()`: empty content, no separators. -/
instance : Inhabited StatusBarSection :=
  ⟨{ pre_separator := none, content := { spans := [] }, post_separator := none }⟩

/-- `From<&str> for StatusBarSection`: a plain string becomes the content,
with no separators. -/
def StatusBarSection.fromStr (s : String) : StatusBarSection :=
  { pre_separator := none
    content := { spans := [{ content := s }] }
    post_separator := none }

/-- Modelled from the spec: the distribution strategies of the layout section
that the source's `ratatui::layout::Flex` field exposes (`Start`, `End`,
`Center`, `SpaceBetween`, `SpaceAround`).  The source's `Flex::default()` is
modelled as `Start`, the spec's canonical sequential strategy. -/
inductive Flex where
  | Start
  | End
  | Center
  | SpaceBetween
  | SpaceAround
deriving DecidableEq, Repr

instance : Inhabited Flex := ⟨Flex.Start⟩

/-- Modelled from the spec: the list of gaps placed before each section, one
gap per section (the gap before section 0 is the leading offset).  `spacing`
separates adjacent sections for `Start`/`End`/`Center`; `SpaceBetween` and
`SpaceAround` derive their own gaps from the free space, remainder columns
going to the earliest interior gaps (for `SpaceAround`, to the leading outer
gap first). -/
def flexGaps (flex : Flex) (spacing W : Nat) (widths : List Nat) : List Nat :=
  match widths with
  | [] => []
  | _ :: _ =>
    let n := widths.length
    let total := widths.sum + spacing * (n - 1)
    match flex with
    | .Start => 0 :: List.replicate (n - 1) spacing
    | .End => (W - total) :: List.replicate (n - 1) spacing
    | .Center => ((W - total) / 2) :: List.replicate (n - 1) spacing
    | .SpaceBetween =>
        if n = 1 then [0]
        else
          let free := W - widths.sum
          0 :: (List.range (n - 1)).map fun i =>
            free / (n - 1) + if i < free % (n - 1) then 1 else 0
    | .SpaceAround =>
        let free := W - widths.sum
        let base := free / (n + 1)
        let r := free % (n + 1)
        (base + if 1 ≤ r then 1 else 0) ::
          (List.range (n - 1)).map fun i =>
            base + if i < r - 2 then 1 else 0

/-- Modelled from the spec: sequential placement of sub-rectangles.  Each
pair `(g, w)` places one gap of `g` columns followed by one sub-rectangle of
requested width `w`; a sub-rectangle is clamped to the region's right edge
(width clamped to the remaining columns, and omitted — width 0 — when it
would start at or beyond the right edge).  Every sub-rectangle sits on the
single row `y` with height 1. -/
def placeRects (y right : Nat) : Nat → List (Nat × Nat) → List Rect
  | _, [] => []
  | pos, (g, w) :: rest =>
    { x := min (pos + g) right
      y := y
      width := min w (right - (pos + g))
      height := 1 } :: placeRects y right (pos + g + w) rest

/-- Modelled from the spec: the layout step
(`Layout::horizontal(lengths).flex(flex).spacing(spacing).split(area)`):
map the section widths to one sub-rectangle each inside `area`, according to
the distribution strategy and spacing. -/
def splitLayout (area : Rect) (widths : List Nat) (flex : Flex)
    (spacing : Nat) : List Rect :=
  placeRects area.y (area.x + area.width) area.x
    ((flexGaps flex spacing area.width widths).zip widths)

/-- The status bar (`struct StatusBar`): an ordered sequence of sections plus
the flex strategy and inter-section spacing. -/
structure StatusBar where
  sections : List StatusBarSection
  flex : Flex
  spacing : Nat
deriving DecidableEq, Repr

/-- `StatusBar::new(nsections)`: `nsections` default sections, default flex,
spacing 1. -/
def StatusBar.new (nsections : Nat) : StatusBar :=
  { sections := List.replicate nsections default
    flex := default
    spacing := 1 }

/-- `StatusBar::section(index, section)` (named `setSection` here because
`section` is a Lean keyword): replace the section at `index`, or return
`IndexOutOfBounds(index)` when the index does not exist. -/
def StatusBar.setSection (bar : StatusBar) (index : Nat)
    (s : StatusBarSection) : Except StatusBarError StatusBar :=
  if index < bar.sections.length then
    .ok { bar with sections := bar.sections.set index s }
  else
    .error (.IndexOutOfBounds index)

/-- The write loop of `render_ref`: for each section zipped with its
sub-rectangle, `buf.set_line(rect.left(), rect.top(), &section.content,
u16::try_from(section.content.width()).unwrap())` — note that the width limit
passed is the content's own width, not the sub-rectangle's. -/
def renderLoop : Buffer → List (StatusBarSection × Rect) → Buffer
  | buf, [] => buf
  | buf, (s, r) :: rest =>
    renderLoop (buf.setLine r.x r.y s.content s.content.width) rest

/-- `<StatusBar as WidgetRef>::render_ref(area, buf)`.  Returns `none` for
the panic of `u16::try_from(s.content.width()).unwrap()`, which is evaluated
for every section while the layout's constraints are collected (after the
`area.is_empty()` early return). -/
def StatusBar.renderRef (bar : StatusBar) (area : Rect) (buf : Buffer) :
    Option Buffer :=
  if area.isEmpty then some buf
  else if bar.sections.any fun s => 65536 ≤ s.content.width then none
  else
    some (renderLoop buf
      (bar.sections.zip
        (splitLayout area (bar.sections.map fun s => s.content.width)
          bar.flex bar.spacing)))

instance {ε α : Type} [DecidableEq ε] [DecidableEq α] :
    DecidableEq (Except ε α) := fun a b =>
  match a, b with
  | .ok x, .ok y =>
      if h : x = y then .isTrue (by rw [h])
      else .isFalse (by intro hc; injection hc; contradiction)
  | .error e, .error f =>
      if h : e = f then .isTrue (by rw [h])
      else .isFalse (by intro hc; injection hc; contradiction)
  | .ok _, .error _ => .isFalse (by intro hc; injection hc)
  | .error _, .ok _ => .isFalse (by intro hc; injection hc)

/-! ## Buffer lemmas -/

/-- Row-major indices are ordered by row first. -/
lemma rowMajor_lt {w a a' d d' : Nat} (ha : a < w) (hd : d < d') :
    d * w + a < d' * w + a' := by
  have h1 : d * w + a < (d + 1) * w := by
    have hs : (d + 1) * w = d * w + w := Nat.succ_mul d w
    omega
  have h2 : (d + 1) * w ≤ d' * w := Nat.mul_le_mul_right w hd
  omega

/-- Distinct cells inside the buffer's area have distinct row-major indices. -/
lemma Buffer.indexOf_ne {b : Buffer} {x y x' y' : Nat}
    (h : b.area.containsCell x y) (h' : b.area.containsCell x' y')
    (hne : x ≠ x' ∨ y ≠ y') : b.indexOf x y ≠ b.indexOf x' y' := by
  obtain ⟨hx1, hx2, hy1, hy2⟩ := h
  obtain ⟨hx1', hx2', hy1', hy2'⟩ := h'
  unfold Buffer.indexOf
  rcases Nat.lt_trichotomy (y - b.area.y) (y' - b.area.y) with hd | hd | hd
  · exact Nat.ne_of_lt (rowMajor_lt (by omega) hd)
  · rw [hd]
    have hyy : y = y' := by omega
    have hxx : x ≠ x' := by tauto
    omega
  · exact (Nat.ne_of_lt (rowMajor_lt (by omega) hd)).symm

/-- Writing a cell never changes the buffer's area. -/
lemma Buffer.area_set (b : Buffer) (x y : Nat) (c : Char) :
    (b.set x y c).area = b.area := by
  unfold Buffer.set
  split <;> rfl

/-- Cells outside the buffer's area always read as blank. -/
lemma Buffer.get_of_not_contains {b : Buffer} {x y : Nat}
    (h : ¬ b.area.containsCell x y) : b.get x y = ' ' := by
  unfold Buffer.get
  rw [if_neg h]

/-- Writing one cell leaves every other cell unchanged. -/
lemma Buffer.get_set_of_ne (b : Buffer) (x y : Nat) (c : Char) {x' y' : Nat}
    (hne : x' ≠ x ∨ y' ≠ y) :
    (b.set x y c).get x' y' = b.get x' y' := by
  unfold Buffer.set
  split
  · next hin =>
    unfold Buffer.get Buffer.indexOf
    split
    · next hin' =>
      have hidx : b.indexOf x y ≠ b.indexOf x' y' :=
        Buffer.indexOf_ne hin hin' (by tauto)
      unfold Buffer.indexOf at hidx
      simp only [List.getD_eq_getElem?_getD]
      rw [List.getElem?_set_ne hidx]
    · rfl
  · rfl

/-- `writeChars` never changes the buffer's area. -/
lemma writeChars_area (y : Nat) :
    ∀ (cs : List Char) (buf : Buffer) (x : Nat),
      (writeChars y buf x cs).area = buf.area := by
  intro cs
  induction cs with
  | nil => intro buf x; rfl
  | cons c cs ih =>
    intro buf x
    rw [writeChars, ih, Buffer.area_set]

/-- `writeChars` leaves every cell off its row, left of its start, or at or
beyond its end unchanged. -/
lemma get_writeChars_of (y : Nat) :
    ∀ (cs : List Char) (buf : Buffer) (x xq yq : Nat),
      (yq ≠ y ∨ xq < x ∨ x + cs.length ≤ xq) →
      (writeChars y buf x cs).get xq yq = buf.get xq yq := by
  intro cs
  induction cs with
  | nil => intro buf x xq yq _; rfl
  | cons c cs ih =>
    intro buf x xq yq h
    rw [writeChars]
    have hstep : (buf.set x y c).get xq yq = buf.get xq yq := by
      apply Buffer.get_set_of_ne
      rcases h with h | h | h
      · exact Or.inr h
      · exact Or.inl (by omega)
      · exact Or.inl (by simp at h; omega)
    have hrec : yq ≠ y ∨ xq < x + 1 ∨ x + 1 + cs.length ≤ xq := by
      rcases h with h | h | h
      · exact Or.inl h
      · exact Or.inr (Or.inl (by omega))
      · exact Or.inr (Or.inr (by simp at h ⊢; omega))
    rw [ih (buf.set x y c) (x + 1) xq yq hrec, hstep]

/-- The characters of a line are exactly as many as its display width. -/
lemma Line.length_chars (l : Line) : l.chars.length = l.width := by
  unfold Line.chars Line.width
  rw [List.length_flatten, List.map_map]
  rfl

/-- A section built from a plain string has the string's display width. -/
lemma width_fromStr (s : String) :
    (StatusBarSection.fromStr s).content.width = s.length := by
  unfold StatusBarSection.fromStr Line.width
  simp

/-- Writing a section's content (with the content's own width as the limit)
into the sub-rectangle placed at gap `g` after position `pos` leaves every
cell outside that sub-rectangle unchanged, provided the buffer does not
extend right of the region's right edge. -/
lemma get_setLine_outside (buf : Buffer) (y right pos g : Nat) (line : Line)
    (xq yq : Nat) (hbr : buf.area.x + buf.area.width ≤ right)
    (hout : ¬ (Rect.mk (min (pos + g) right) y
        (min line.width (right - (pos + g))) 1).containsCell xq yq) :
    (buf.setLine (min (pos + g) right) y line line.width).get xq yq
      = buf.get xq yq := by
  unfold Buffer.setLine
  have hlen : (line.chars.take line.width).length = line.width := by
    rw [List.length_take, Line.length_chars]
    omega
  unfold Rect.containsCell at hout
  simp only [not_and, not_lt] at hout
  by_cases hy : yq = y
  · have hx3 : xq < min (pos + g) right ∨
        min (pos + g) right + min line.width (right - (pos + g)) ≤ xq := by
      by_cases h1 : min (pos + g) right ≤ xq
      · right
        by_contra h2
        have := hout h1 (by omega) (by omega)
        omega
      · left
        omega
    rcases hx3 with hx3 | hx3
    · exact get_writeChars_of y (line.chars.take line.width) buf
        (min (pos + g) right) xq yq (Or.inr (Or.inl hx3))
    · by_cases hx4 : min (pos + g) right + line.width ≤ xq
      · exact get_writeChars_of y (line.chars.take line.width) buf
          (min (pos + g) right) xq yq (Or.inr (Or.inr (by omega)))
      · have hq : right ≤ xq := by omega
        have hnc : ¬ buf.area.containsCell xq yq := by
          unfold Rect.containsCell
          omega
        have hnc' : ¬ (writeChars y buf (min (pos + g) right)
            (line.chars.take line.width)).area.containsCell xq yq := by
          rw [writeChars_area]
          exact hnc
        rw [Buffer.get_of_not_contains hnc', Buffer.get_of_not_contains hnc]
  · exact get_writeChars_of y (line.chars.take line.width) buf
      (min (pos + g) right) xq yq (Or.inl hy)

/-- `renderLoop` never changes the buffer's area. -/
lemma renderLoop_area :
    ∀ (l : List (StatusBarSection × Rect)) (buf : Buffer),
      (renderLoop buf l).area = buf.area := by
  intro l
  induction l with
  | nil => intro buf; rfl
  | cons p l ih =>
    intro buf
    obtain ⟨s, r⟩ := p
    rw [renderLoop, ih]
    unfold Buffer.setLine
    rw [writeChars_area]

/-- The write loop of `render_ref` leaves every cell that lies outside all
the placed sub-rectangles unchanged, provided the buffer does not extend
right of the region's right edge. -/
lemma get_renderLoop_outside (y right : Nat) :
    ∀ (ss : List StatusBarSection) (gs : List Nat) (pos : Nat) (buf : Buffer)
      (xq yq : Nat),
      buf.area.x + buf.area.width ≤ right →
      (∀ r ∈ placeRects y right pos (gs.zip (ss.map fun s => s.content.width)),
        ¬ r.containsCell xq yq) →
      (renderLoop buf (ss.zip (placeRects y right pos
          (gs.zip (ss.map fun s => s.content.width))))).get xq yq
        = buf.get xq yq := by
  intro ss
  induction ss with
  | nil =>
    intro gs pos buf xq yq _ _
    rfl
  | cons s ss ih =>
    intro gs pos buf xq yq hbr hout
    cases gs with
    | nil => rfl
    | cons g gs =>
      simp only [List.map_cons, List.zip_cons_cons, placeRects] at hout ⊢
      rw [renderLoop]
      dsimp only
      have hhead := get_setLine_outside buf y right pos g s.content xq yq hbr
        (hout _ (List.mem_cons_self _ _))
      have hbr' : (buf.setLine (min (pos + g) right) y s.content
          s.content.width).area.x + (buf.setLine (min (pos + g) right) y
          s.content s.content.width).area.width ≤ right := by
        unfold Buffer.setLine
        rw [writeChars_area]
        exact hbr
      have htail := ih gs (pos + g + s.content.width)
        (buf.setLine (min (pos + g) right) y s.content s.content.width) xq yq
        hbr' (fun r hr => hout r (List.mem_cons_of_mem _ hr))
      exact htail.trans hhead

/-! ## Layout lemmas -/

/-- Every sub-rectangle placed from position `pos` starts at or right of
`min pos right`. -/
lemma placeRects_le_x (y right : Nat) :
    ∀ (ps : List (Nat × Nat)) (pos : Nat) (r : Rect),
      r ∈ placeRects y right pos ps → min pos right ≤ r.x := by
  intro ps
  induction ps with
  | nil =>
    intro pos r h
    simp [placeRects] at h
  | cons p ps ih =>
    intro pos r h
    obtain ⟨g, w⟩ := p
    rw [placeRects] at h
    rcases List.mem_cons.mp h with rfl | h
    · simp only []
      omega
    · have := ih (pos + g + w) r h
      omega

/-- Sequential placement yields sub-rectangles whose column intervals are
pairwise disjoint and ordered left to right. -/
lemma placeRects_pairwise (y right : Nat) :
    ∀ (ps : List (Nat × Nat)) (pos : Nat),
      (placeRects y right pos ps).Pairwise fun a b => a.x + a.width ≤ b.x := by
  intro ps
  induction ps with
  | nil => intro pos; exact List.Pairwise.nil
  | cons p ps ih =>
    intro pos
    obtain ⟨g, w⟩ := p
    rw [placeRects]
    refine List.Pairwise.cons ?_ (ih _)
    intro r hr
    have h := placeRects_le_x y right ps (pos + g + w) r hr
    simp only []
    omega

/-! ## Concrete inputs used by the claim theorems -/

/-- A bar with the single section `"hello"`, strategy `Start`, spacing 1. -/
def barHello : StatusBar :=
  { sections := [.fromStr "hello"], flex := .Start, spacing := 1 }

/-- A bar with the sections `"hello"` and `"world"`, strategy `Start`,
spacing 1 (the defaults of `StatusBar::new`). -/
def barHelloWorld : StatusBar :=
  { sections := [.fromStr "hello", .fromStr "world"]
    flex := .Start
    spacing := 1 }

/-- A bar with one section whose `pre_separator` is `" | "` and whose
content is `"a"`. -/
def barSeparator : StatusBar :=
  { sections := [{ pre_separator := some { content := " | " }
                   content := { spans := [{ content := "a" }] }
                   post_separator := none }]
    flex := .Start
    spacing := 1 }

/-- A bar with one section whose content has display width 65536, one more
than fits in a `u16`. -/
def barWide : StatusBar :=
  { sections := [.fromStr (String.mk (List.replicate 65536 'a'))]
    flex := .Start
    spacing := 1 }

/-! ## Claim theorems -/

/-- C4: for every `StatusBar` with `n` sections and every index `i`, the
by-index mutator `section(i, x)` returns `IndexOutOfBounds(i)` as a value
exactly when `i ≥ n`, and when `i < n` it succeeds and replaces section `i`
with `x`. -/
theorem setSection_index_bounds (bar : StatusBar) (i : Nat)
    (x : StatusBarSection) :
    (bar.sections.length ≤ i →
      bar.setSection i x = .error (.IndexOutOfBounds i)) ∧
    (i < bar.sections.length →
      bar.setSection i x = .ok { bar with sections := bar.sections.set i x }) := by
  constructor <;> intro h <;> unfold StatusBar.setSection
  · rw [if_neg (by omega)]
  · rw [if_pos h]

/-- Witness for C4: on a two-section bar, index 0 succeeds and replaces the
section, index 5 reports `IndexOutOfBounds(5)`. -/
theorem setSection_index_bounds_witness :
    (StatusBar.new 2).setSection 0 (.fromStr "a")
      = .ok { sections := [.fromStr "a", default]
              flex := .Start
              spacing := 1 } ∧
    (StatusBar.new 2).setSection 5 (.fromStr "a")
      = .error (.IndexOutOfBounds 5) := by
  constructor
  · rw [(setSection_index_bounds (StatusBar.new 2) 0 (.fromStr "a")).2
      (by decide)]
    decide
  · exact (setSection_index_bounds (StatusBar.new 2) 5 (.fromStr "a")).1
      (by decide)

/-- C6: for every distribution strategy, spacing, and combination of section
widths (whether or not they fit in the region), the computed sub-rectangles
are pairwise non-overlapping (each ends at or before the next begins) and
their left coordinates are monotonically increasing. -/
theorem splitLayout_pairwise_disjoint (area : Rect) (widths : List Nat)
    (flex : Flex) (spacing : Nat) :
    (splitLayout area widths flex spacing).Pairwise
      fun a b => a.x + a.width ≤ b.x ∧ a.x ≤ b.x := by
  have h := placeRects_pairwise area.y (area.x + area.width)
    ((flexGaps flex spacing area.width widths).zip widths) area.x
  exact h.imp fun hab => ⟨hab, by omega⟩

/-- C7: render is a pure function of its inputs — identical `StatusBar`,
area, and starting buffer contents produce identical results (the embedding
is state-explicit: the entire effect of `render_ref` is the returned
buffer). -/
theorem renderRef_deterministic (bar : StatusBar) (area : Rect)
    (buf1 buf2 : Buffer) (h : buf1 = buf2) :
    bar.renderRef area buf1 = bar.renderRef area buf2 := by
  rw [h]

/-- Witness for C7: rendering the same bar into a freshly-cleared buffer
twice yields identical results. -/
theorem renderRef_deterministic_witness :
    barHelloWorld.renderRef ⟨0, 0, 16, 1⟩ (Buffer.cleared 16 1)
      = barHelloWorld.renderRef ⟨0, 0, 16, 1⟩ (Buffer.cleared 16 1) :=
  renderRef_deterministic barHelloWorld ⟨0, 0, 16, 1⟩
    (Buffer.cleared 16 1) (Buffer.cleared 16 1) rfl

/-- C8: rendering into a region of zero width or zero height performs no
writes to the buffer and raises no error. -/
theorem renderRef_empty_area (bar : StatusBar) (area : Rect) (buf : Buffer)
    (h : area.width = 0 ∨ area.height = 0) :
    bar.renderRef area buf = some buf := by
  unfold StatusBar.renderRef
  rw [if_pos]
  unfold Rect.isEmpty
  rcases h with h | h <;> simp [h]

/-- Witness for C8: a zero-width region leaves a cleared buffer untouched
and reports no error. -/
theorem renderRef_empty_area_witness :
    (StatusBar.new 1).renderRef ⟨0, 0, 0, 5⟩ (Buffer.cleared 4 1)
      = some (Buffer.cleared 4 1) :=
  renderRef_empty_area (StatusBar.new 1) ⟨0, 0, 0, 5⟩ (Buffer.cleared 4 1)
    (Or.inl rfl)

/-- C1 as stated is false: rendering `"hello"` with strategy `Start` into the
region `⟨0,0,3,1⟩` of a wider (6-column) cleared buffer computes the single
sub-rectangle `⟨0,0,3,1⟩`, yet mutates cell `(3,0)`, which lies outside every
sub-rectangle — `render_ref` passes the content's own width to `set_line`, so
writes are clipped at the buffer's right edge, not the sub-rectangle's. -/
theorem renderRef_mutates_outside_subrects :
    barHello.renderRef ⟨0, 0, 3, 1⟩ (Buffer.cleared 6 1)
      = some { area := ⟨0, 0, 6, 1⟩, content := "hello ".data } ∧
    splitLayout ⟨0, 0, 3, 1⟩ (barHello.sections.map fun s => s.content.width)
      barHello.flex barHello.spacing = [⟨0, 0, 3, 1⟩] ∧
    ¬ (Rect.mk 0 0 3 1).containsCell 3 0 ∧
    ({ area := ⟨0, 0, 6, 1⟩, content := "hello ".data } : Buffer).get 3 0
      ≠ (Buffer.cleared 6 1).get 3 0 := by
  decide

/-- C1 amended: provided the buffer does not extend right of the render
area's right edge (e.g. when the buffer is exactly the render area), a
successful render mutates only cells inside the computed sub-rectangles;
every cell outside all sub-rectangles retains the value it had before the
call. -/
theorem renderRef_outside_subrects (bar : StatusBar) (area : Rect)
    (buf out : Buffer) (xq yq : Nat)
    (hbr : buf.area.x + buf.area.width ≤ area.x + area.width)
    (hrender : bar.renderRef area buf = some out)
    (hout : ∀ r ∈ splitLayout area (bar.sections.map fun s => s.content.width)
        bar.flex bar.spacing, ¬ r.containsCell xq yq) :
    out.get xq yq = buf.get xq yq := by
  unfold StatusBar.renderRef at hrender
  split at hrender
  · injection hrender with h
    rw [← h]
  · split at hrender
    · exact absurd hrender (by simp)
    · injection hrender with h
      rw [← h]
      unfold splitLayout at hout
      exact get_renderLoop_outside area.y (area.x + area.width) bar.sections
        (flexGaps bar.flex bar.spacing area.width
          (bar.sections.map fun s => s.content.width))
        area.x buf xq yq hbr hout

/-- Witness for the amended C1: with the buffer equal to the width-3 region,
rendering `"hello"` leaves the cell `(0,1)` outside the single sub-rectangle
unchanged. -/
theorem renderRef_outside_subrects_witness :
    barHello.renderRef ⟨0, 0, 3, 1⟩ (Buffer.cleared 3 1)
      = some { area := ⟨0, 0, 3, 1⟩, content := "hel".data } ∧
    ({ area := ⟨0, 0, 3, 1⟩, content := "hel".data } : Buffer).get 0 1
      = (Buffer.cleared 3 1).get 0 1 :=
  ⟨by decide,
   renderRef_outside_subrects barHello ⟨0, 0, 3, 1⟩ (Buffer.cleared 3 1)
     { area := ⟨0, 0, 3, 1⟩, content := "hel".data } 0 1 (by decide)
     (by decide) (by decide)⟩

/-- C2 as stated is false: with the single section `"hello"` (width 5),
strategy `Start`, and region width 3 inside a 6-column buffer, the computed
sub-rectangle is `⟨0,0,3,1⟩` but render writes five columns — column 4 holds
`'o'` — because the width limit passed to the line writer is the content's
width, not the sub-rectangle's. -/
theorem renderRef_overflows_subrect_width :
    barHello.renderRef ⟨0, 0, 3, 1⟩ (Buffer.cleared 6 1)
      = some { area := ⟨0, 0, 6, 1⟩, content := "hello ".data } ∧
    splitLayout ⟨0, 0, 3, 1⟩ (barHello.sections.map fun s => s.content.width)
      barHello.flex barHello.spacing = [⟨0, 0, 3, 1⟩] ∧
    ({ area := ⟨0, 0, 6, 1⟩, content := "hello ".data } : Buffer).get 4 0
      = 'o' ∧
    (Buffer.cleared 6 1).get 4 0 = ' ' := by
  decide

/-- C2 amended: render writes columns left to right from each
sub-rectangle's left and stops at the buffer's right edge rather than after
the sub-rectangle's width (the width limit passed to the line writer is the
content's own width); cells at or right of the buffer's right edge are never
changed, so when the buffer coincides with the width-3 region, the single
section `"hello"` with strategy `Start` is effectively truncated to
`"hel"`. -/
theorem renderRef_truncates_at_buffer_edge :
    (∀ (bar : StatusBar) (area : Rect) (buf out : Buffer) (xq yq : Nat),
      bar.renderRef area buf = some out →
      buf.area.x + buf.area.width ≤ xq →
      out.get xq yq = buf.get xq yq) ∧
    barHello.renderRef ⟨0, 0, 3, 1⟩ (Buffer.cleared 3 1)
      = some { area := ⟨0, 0, 3, 1⟩, content := "hel".data } := by
  constructor
  · intro bar area buf out xq yq hrender hx
    have harea : out.area = buf.area := by
      unfold StatusBar.renderRef at hrender
      split at hrender
      · injection hrender with h
        rw [← h]
      · split at hrender
        · exact absurd hrender (by simp)
        · injection hrender with h
          rw [← h, renderLoop_area]
    have hnc : ¬ buf.area.containsCell xq yq := by
      unfold Rect.containsCell
      omega
    have hnc' : ¬ out.area.containsCell xq yq := by
      rw [harea]
      exact hnc
    rw [Buffer.get_of_not_contains hnc', Buffer.get_of_not_contains hnc]
  · decide

/-- Witness for the amended C2: cell `(7,0)` sits right of the buffer's
right edge and is unchanged by the render that produced `"hel"`. -/
theorem renderRef_truncates_at_buffer_edge_witness :
    ({ area := ⟨0, 0, 3, 1⟩, content := "hel".data } : Buffer).get 7 0
      = (Buffer.cleared 3 1).get 7 0 :=
  renderRef_truncates_at_buffer_edge.1 barHello ⟨0, 0, 3, 1⟩
    (Buffer.cleared 3 1) { area := ⟨0, 0, 3, 1⟩, content := "hel".data } 7 0
    renderRef_truncates_at_buffer_edge.2 (by decide)

/-- C3: the code ignores separators entirely — a section configured with
`pre_separator = " | "` and content `"a"` renders as `"a     "` into a
cleared width-6 region (the separator is never written), and the layout
width for the section is 1, the content's width alone (`render_ref` builds
its constraints from `s.content.width()` and writes only `section.content`;
the `pre_separator`/`post_separator` fields are never read during
rendering). -/
theorem renderRef_ignores_separators :
    barSeparator.renderRef ⟨0, 0, 6, 1⟩ (Buffer.cleared 6 1)
      = some { area := ⟨0, 0, 6, 1⟩, content := "a     ".data } ∧
    splitLayout ⟨0, 0, 6, 1⟩
      (barSeparator.sections.map fun s => s.content.width)
      barSeparator.flex barSeparator.spacing = [⟨0, 0, 1, 1⟩] := by
  decide

/-- C5 as stated is false: a section whose content display width is 65536
does not fit in a `u16`, so `u16::try_from(s.content.width()).unwrap()` in
the render path fails (modelled as `none`) even though the region is a
perfectly ordinary non-empty rectangle. -/
theorem renderRef_wide_content_conversion :
    barWide.renderRef ⟨0, 0, 3, 1⟩ (Buffer.cleared 3 1) = none := by
  have hw : (StatusBarSection.fromStr
      (String.mk (List.replicate 65536 'a'))).content.width = 65536 := by
    rw [width_fromStr, String.length_mk, List.length_replicate]
  unfold StatusBar.renderRef barWide
  rw [if_neg (by decide), if_pos]
  rw [List.any_cons, List.any_nil, hw]
  rw [Bool.or_false, decide_eq_true_eq]

/-- C5 amended: render never panics provided every section's content display
width fits in a `u16` (is at most 65535); under that bound no internal
conversion in the render path can fail, and layout degeneracies are handled
as silent behaviors. -/
theorem renderRef_total_of_widths_fit (bar : StatusBar) (area : Rect)
    (buf : Buffer) (h : ∀ s ∈ bar.sections, s.content.width < 65536) :
    (bar.renderRef area buf).isSome := by
  unfold StatusBar.renderRef
  split
  · rfl
  · split
    · next hw =>
      exfalso
      rw [List.any_eq_true] at hw
      obtain ⟨s, hs, hws⟩ := hw
      have := h s hs
      simp at hws
      omega
    · rfl

/-- Witness for the amended C5: rendering a default two-section bar succeeds
(both widths are 0, well under the `u16` bound). -/
theorem renderRef_total_of_widths_fit_witness :
    ((StatusBar.new 2).renderRef ⟨0, 0, 16, 1⟩ (Buffer.cleared 16 1)).isSome :=
  renderRef_total_of_widths_fit (StatusBar.new 2) ⟨0, 0, 16, 1⟩
    (Buffer.cleared 16 1) (by decide)

/-- C9: rendering the sections `"hello"` and `"world"` with strategy `Start`
and spacing 1 into a cleared width-16 region yields the row
`"hello world     "` — 5+1+5 = 11 used columns followed by 5 blanks. -/
theorem renderRef_hello_world_16 :
    barHelloWorld.renderRef ⟨0, 0, 16, 1⟩ (Buffer.cleared 16 1)
      = some { area := ⟨0, 0, 16, 1⟩, content := "hello world     ".data } := by
  decide

/-- C10: `StatusBar::new(n)` defaults the inter-section spacing to 1 (not 0)
and creates `n` sections with empty content and no separators; with that
default configuration, two adjacent non-empty sections (`"hello"`,
`"world"`) render separated by exactly one blank column. -/
theorem new_defaults (n : Nat) :
    (StatusBar.new n).spacing = 1 ∧
    (StatusBar.new n).sections = List.replicate n
      { pre_separator := none, content := { spans := [] }
        post_separator := none } ∧
    ((((StatusBar.new 2).setSection 0 (.fromStr "hello")).bind
        fun b => b.setSection 1 (.fromStr "world")).map
      fun b => b.renderRef ⟨0, 0, 11, 1⟩ (Buffer.cleared 11 1))
      = .ok (some { area := ⟨0, 0, 11, 1⟩, content := "hello world".data }) :=
  ⟨rfl, rfl, by decide⟩

end RatatuiStatusbar
